import Mathlib

/-!
Shallow embedding of the OAuth installation flow of the `thecartsave-auth`
repository. The repository contains several near-duplicate iterations of the
same Express service; the definitions below embed, per variant:

* the session-validating variant (`src/unnamed/part_000`): `/oauth` entry
  (`beginAuthorization`), `/oauth/callback` (`completeAuthorization`), its
  cookie-session state ledger and its `shops` upsert;
* the variant in `src/index.js`: its `/oauth/callback`
  (`completeAuthorizationIndex`), its `Math.random` state generator
  (`mathRandomState`) and its `shops` upsert with `plan`/`settings` columns
  (`upsertIndex`).

External collaborators are passed in explicitly: the token-exchange endpoint
is an oracle `String -> TokenResponse` keyed by the authorization code, and
database availability is a boolean `dbOk` (a failing `pool.query` throws in
the JS source; here the failing branch is taken when `dbOk = false`).
-/

namespace TheCartSave

/-! ## URL encoding

`encodeURIComponent` as JavaScript defines it on ASCII input: the unreserved
characters (alphanumeric and `- _ . ! ~ * ( )` and the apostrophe) are kept,
every other character is percent-encoded as `%XX` with uppercase hex digits.
All strings appearing in the embedded handlers are ASCII. -/

def isUnreservedChar (c : Char) : Bool :=
  c.isAlphanum || c = '-' || c = '_' || c = '.' || c = '!' || c = '~' ||
    c = '*' || c = '\x27' || c = '(' || c = ')'

def hexUpper (n : Nat) : Char :=
  if n < 10 then Char.ofNat (48 + n) else Char.ofNat (55 + n)

def percentEncodeChar (c : Char) : String :=
  String.mk ['%', hexUpper (c.toNat / 16), hexUpper (c.toNat % 16)]

def encodeURIComponent (s : String) : String :=
  String.join (s.data.map (fun c =>
    if isUnreservedChar c then String.mk [c] else percentEncodeChar c))

/-! ## String helpers mirroring the JavaScript operations used -/

/-- Embeds JavaScript `s.includes(pat)`: some contiguous substring of `s`
equals `pat`. -/
def strIncludes (s pat : String) : Bool :=
  (List.range (s.data.length + 1)).any (fun i => pat.data.isPrefixOf (s.data.drop i))

/-- Embeds JavaScript `s.endsWith(pat)`. -/
def strEndsWith (s pat : String) : Bool :=
  pat.data.isSuffixOf s.data

/-! ## Configuration constants of `src/unnamed/part_000`

`HOST` is the externally visible base URL (the source comments fix it to the
production deployment); the scope list and its comma join are verbatim from
the `/oauth` handler. -/

def HOST : String := "https://thecartsave-auth.vercel.app"

def redirectUri : String := HOST ++ "/oauth/callback"

def scopeList : List String :=
  ["read_products", "write_checkouts", "read_orders", "read_customers",
   "write_marketing_events", "write_discounts"]

def scopes : String := String.intercalate "," scopeList

/-! ## Authorization Initiator (`GET /oauth` of `src/unnamed/part_000`) -/

/-- The cookie session written by `/oauth` and read by `/oauth/callback`:
`req.session.oauthState` and `req.session.shop`. -/
structure Session where
  oauthState : String
  shop : String
deriving Repr, DecidableEq

inductive BeginError
  /-- 400 `Missing shop parameter` -/
  | missingShop
  /-- 400 `Invalid shop domain` -/
  | invalidShopDomain
deriving Repr, DecidableEq

inductive BeginResult
  | ok (authUrl : String) (session : Session)
  | err (e : BeginError)
deriving Repr, DecidableEq

def BeginResult.isOk : BeginResult → Bool
  | .ok _ _ => true
  | .err _ => false

/-- The authorization redirect URL built by the `/oauth` handler of
`src/unnamed/part_000`: the scope string and the state are interpolated
verbatim, the redirect URI goes through `encodeURIComponent` once. -/
def authUrl (apiKey shop state : String) : String :=
  "https://" ++ shop ++ "/admin/oauth/authorize" ++
    "?client_id=" ++ apiKey ++
    "&scope=" ++ scopes ++
    "&state=" ++ state ++
    "&redirect_uri=" ++ encodeURIComponent redirectUri

/-- Embeds the `GET /oauth` handler of `src/unnamed/part_000`. The `state`
argument stands for the value produced by `crypto.randomBytes(16).toString("hex")`
on this request; the handler records `{oauthState, shop}` in the session and
returns the redirect URL. -/
def beginAuthorization (apiKey shop state : String) : BeginResult :=
  if shop = "" then .err .missingShop
  else if strIncludes shop ".myshopify.com" = false then .err .invalidShopDomain
  else .ok (authUrl apiKey shop state) ⟨state, shop⟩

/-! ## State generation of `src/index.js`

`src/index.js` line 132 generates the state as
`Math.random().toString(36).substring(2, 15)`. `Math.random()` returns a
number in `[0, 1)`; `toString(36)` prints `0.` followed by its base-36
fraction digits with trailing zero digits omitted; `substring(2, 15)` keeps at
most the first 13 fraction digits. `mathRandomState` maps the (finite)
base-36 fraction digit list of the random number to that string. -/

def base36Char (d : Fin 36) : Char :=
  if d.val < 10 then Char.ofNat (48 + d.val) else Char.ofNat (87 + d.val)

def stripTrailingZeros (ds : List (Fin 36)) : List (Fin 36) :=
  ((ds.reverse).dropWhile (fun d => d.val = 0)).reverse

def mathRandomState (ds : List (Fin 36)) : String :=
  String.mk (((stripTrailingZeros ds).take 13).map base36Char)

/-- Numeric value of a base-36 digit character, inverse to `base36Char`. -/
def char36val (c : Char) : Nat :=
  if c.toNat < 58 then c.toNat - 48 else c.toNat - 87

/-- Little-endian base-38 value of a digit list (digits shifted to `1..37`
so that the encoding of character lists is injective, the empty suffix
coding to `0`). -/
def codeAux : List Nat → Nat
  | [] => 0
  | v :: vs => v + 1 + 38 * codeAux vs

/-- Injective numeric code of a state string: base-38 value of its shifted
digit values, least significant character last in the string. -/
def stateCode (s : String) : Nat :=
  codeAux ((s.data.reverse).map char36val)

/-! ## Credential Store

Two table shapes appear in the repository. `src/unnamed/part_000` inserts
`(shop, access_token)` with `ON CONFLICT (shop) DO UPDATE SET access_token =
EXCLUDED.access_token`. `src/index.js` inserts
`(shop, access_token, plan, settings, created_at)` with
`ON CONFLICT (shop) DO UPDATE SET access_token = $2, updated_at = NOW()`.
A table is a list of rows; the SQL `UNIQUE` constraint on `shop` is the
`keysUnique` invariant. -/

structure CredRow where
  shop : String
  access_token : String
deriving Repr, DecidableEq

/-- Embeds the `shops` upsert of `src/unnamed/part_000`. -/
def upsertP0 (st : List CredRow) (shop tok : String) : List CredRow :=
  if st.any (fun r => r.shop == shop) then
    st.map (fun r => if r.shop == shop then { r with access_token := tok } else r)
  else
    st ++ [⟨shop, tok⟩]

structure ShopRow where
  shop : String
  access_token : String
  plan : String
  settings : String
  created_at : Nat
  updated_at : Option Nat
deriving Repr, DecidableEq

abbrev Store := List ShopRow

/-- The `UNIQUE (shop)` constraint: no two rows share a `shop` key. -/
def keysUnique (st : Store) : Prop :=
  st.Pairwise (fun a b => a.shop ≠ b.shop)

/-- Number of rows whose key is `t`. -/
def countShop (st : Store) (t : String) : Nat :=
  (st.filter (fun r => r.shop == t)).length

/-- Embeds the `shops` upsert of `src/index.js`: a conflicting insert updates
only `access_token` and `updated_at`; a fresh insert gets `plan = "free"`,
`settings = JSON.stringify(\x7b\x7d)` and `created_at = NOW()`. -/
def upsertIndex (st : Store) (shop tok : String) (now : Nat) : Store :=
  if st.any (fun r => r.shop == shop) then
    st.map (fun r =>
      if r.shop == shop then { r with access_token := tok, updated_at := some now } else r)
  else
    st ++ [{ shop := shop, access_token := tok, plan := "free",
             settings := "\x7b\x7d", created_at := now, updated_at := none }]

/-! ## Callback Validator and Exchanger -/

/-- Query string of `GET /oauth/callback`; a parameter that is absent is the
empty string (both are falsy in the JavaScript checks involved, and an absent
`state` compares unequal to every stored state just as `""` does, since
stored states are nonempty hex strings). -/
structure CallbackQuery where
  shop : String
  code : String
  state : String
deriving Repr, DecidableEq

inductive CallbackError
  /-- 400 `Missing required params` / `Missing required parameters` -/
  | missingParams
  /-- 400 `Invalid state parameter` (the InvalidOrExpiredState bucket) -/
  | invalidState
  /-- 400 `Shop mismatch` -/
  | shopMismatch
  /-- 400 `Failed to get access token` (the TokenExchangeFailed bucket) -/
  | tokenExchangeFailed
  /-- 500 catch-all of the handler (surfaces thrown errors, e.g. a failing
  database write in `src/unnamed/part_000`) -/
  | callbackError
deriving Repr, DecidableEq

/-- JSON body returned by the external token endpoint: the only field the
handlers read is `access_token`, absent in error responses. -/
structure TokenResponse where
  access_token : Option String
deriving Repr, DecidableEq

inductive CallbackOutcome
  | ok (token : String)
  | err (e : CallbackError)
deriving Repr, DecidableEq

def CallbackOutcome.isOk : CallbackOutcome → Bool
  | .ok _ => true
  | .err _ => false

/-- The check `state !== req.session.oauthState` (negated): with no session
cookie, `req.session.oauthState` is undefined and never equals the supplied
string. -/
def stateMatches (q : CallbackQuery) (sess : Option Session) : Bool :=
  match sess with
  | none => false
  | some s => q.state == s.oauthState

/-- The check `shop !== req.session.shop` (negated). -/
def shopMatches (q : CallbackQuery) (sess : Option Session) : Bool :=
  match sess with
  | none => false
  | some s => q.shop == s.shop

structure CallbackResult where
  outcome : CallbackOutcome
  session : Option Session
  store : List CredRow
  exchangeCalls : Nat
deriving Repr, DecidableEq

/-- Embeds the `GET /oauth/callback` handler of `src/unnamed/part_000`:
require `shop` and `code`, validate `state` against the session ledger,
validate the shop, exchange the code, upsert the credential, clear the
session (`req.session = null`) on success. `exchange` is the external token
endpoint; `dbOk = false` takes the branch where `pool.query` throws, landing
in the 500 catch-all with session and store untouched. `exchangeCalls`
counts calls to the external token endpoint. -/
def completeAuthorization (q : CallbackQuery) (sess : Option Session)
    (exchange : String → TokenResponse) (store : List CredRow) (dbOk : Bool) :
    CallbackResult :=
  if q.shop == "" || q.code == "" then ⟨.err .missingParams, sess, store, 0⟩
  else if q.state == "" || !(stateMatches q sess) then ⟨.err .invalidState, sess, store, 0⟩
  else if !(shopMatches q sess) then ⟨.err .shopMismatch, sess, store, 0⟩
  else
    match (exchange q.code).access_token with
    | none => ⟨.err .tokenExchangeFailed, sess, store, 1⟩
    | some tok =>
      if dbOk then ⟨.ok tok, none, upsertP0 store q.shop tok, 1⟩
      else ⟨.err .callbackError, sess, store, 1⟩

structure IndexCallbackResult where
  outcome : CallbackOutcome
  store : Store
  exchangeCalls : Nat
deriving Repr, DecidableEq

/-- Embeds the `GET /oauth/callback` handler of `src/index.js`: require
`code` and `shop`, exchange the code (no state validation exists in this
variant), and attempt the upsert; a database failure is caught, logged and
swallowed (`dbOk = false` leaves the store unchanged) and the handler still
responds with the success page. A response without `access_token` throws,
landing in the 500 error page. -/
def completeAuthorizationIndex (q : CallbackQuery)
    (exchange : String → TokenResponse) (store : Store) (dbOk : Bool) (now : Nat) :
    IndexCallbackResult :=
  if q.shop == "" || q.code == "" then ⟨.err .missingParams, store, 0⟩
  else
    match (exchange q.code).access_token with
    | none => ⟨.err .tokenExchangeFailed, store, 1⟩
    | some tok =>
      if dbOk then ⟨.ok tok, upsertIndex store q.shop tok now, 1⟩
      else ⟨.ok tok, store, 1⟩

/-! ## Session expiry

`src/unnamed/part_000` configures `cookieSession` with
`maxAge: 24 * 60 * 60 * 1000`; a cookie older than that is no longer
presented, so the callback sees an empty session. -/

def maxAgeMs : Nat := 24 * 60 * 60 * 1000

/-- The session the middleware presents at time `now` for a cookie issued at
`issuedAt`: `none` once the age exceeds `maxAgeMs`. -/
def sessionFromCookie (issuedAt : Nat) (s : Session) (now : Nat) : Option Session :=
  if issuedAt + maxAgeMs < now then none else some s

/-- A stubbed token-exchange endpoint that always returns a token, used in
concrete evaluations. -/
def stubExchange : String → TokenResponse := fun _ => ⟨some "tok_abc"⟩

/-- A stubbed token-exchange endpoint whose response lacks the
`access_token` field (e.g. the provider returned an error body). -/
def failExchange : String → TokenResponse := fun _ => ⟨none⟩

end TheCartSave

namespace TheCartSave

theorem countShop_eq_countP (st : Store) (t : String) :
    countShop st t = st.countP (fun r => r.shop == t) :=
  (List.countP_eq_length_filter _ _).symm

theorem countShop_le_one (st : Store) (t : String) (h : keysUnique st) :
    countShop st t ≤ 1 := by
  induction st with
  | nil => simp [countShop]
  | cons r rs ih =>
    rcases List.pairwise_cons.1 h with ⟨hr, htl⟩
    rw [countShop_eq_countP, List.countP_cons]
    by_cases hs : (r.shop == t) = true
    · have hz : rs.countP (fun r => r.shop == t) = 0 := by
        rw [List.countP_eq_zero]
        intro a ha
        have hne := hr a ha
        simp only [beq_iff_eq] at hs ⊢
        rw [← hs]
        exact fun hcon => hne hcon.symm
      simp [hs, hz]
    · have := ih htl
      rw [countShop_eq_countP] at this
      simp [hs]
      omega

theorem countShop_pos (st : Store) (t : String)
    (h : st.any (fun r => r.shop == t) = true) : 1 ≤ countShop st t := by
  rw [countShop_eq_countP]
  rcases List.any_eq_true.1 h with ⟨r, hr, hshop⟩
  have hpos := (List.countP_pos_iff (p := fun r : ShopRow => r.shop == t)).2 ⟨r, hr, hshop⟩
  omega

theorem upsertIndex_key_present (st : Store) (s tok : String) (n : Nat)
    (h : keysUnique st) : countShop (upsertIndex st s tok n) s = 1 := by
  unfold upsertIndex
  by_cases hany : (st.any (fun r => r.shop == s)) = true
  · simp only [hany, if_true]
    rw [countShop_eq_countP, List.countP_map]
    have hshopf : ∀ r : ShopRow,
        (if r.shop == s then { r with access_token := tok, updated_at := some n } else r).shop
          = r.shop := by
      intro r
      by_cases hr : (r.shop == s) = true
      · rw [if_pos hr]
      · rw [if_neg hr]
    have hpred : ((fun r : ShopRow => r.shop == s) ∘
        (fun r => if r.shop == s then { r with access_token := tok, updated_at := some n } else r))
        = (fun r : ShopRow => r.shop == s) := by
      funext r
      simp only [Function.comp_apply, hshopf r]
    rw [hpred, ← countShop_eq_countP]
    have h1 := countShop_le_one st s h
    have h2 := countShop_pos st s hany
    omega
  · simp only [hany, if_false, Bool.false_eq_true, not_false_eq_true]
    rw [countShop_eq_countP, List.countP_append]
    have hz : st.countP (fun r => r.shop == s) = 0 := by
      rw [List.countP_eq_zero]
      intro a ha hcon
      exact hany (List.any_eq_true.2 ⟨a, ha, hcon⟩)
    simp [hz]

theorem keysUnique_upsertIndex (st : Store) (s tok : String) (n : Nat)
    (h : keysUnique st) : keysUnique (upsertIndex st s tok n) := by
  unfold upsertIndex
  by_cases hany : (st.any (fun r => r.shop == s)) = true
  · simp only [hany, if_true]
    have hshopf : ∀ r : ShopRow,
        (if r.shop == s then { r with access_token := tok, updated_at := some n } else r).shop
          = r.shop := by
      intro r
      by_cases hr : (r.shop == s) = true
      · rw [if_pos hr]
      · rw [if_neg hr]
    exact List.Pairwise.map _ (fun a b hab => by rw [hshopf a, hshopf b]; exact hab) h
  · simp only [hany, if_false, Bool.false_eq_true, not_false_eq_true]
    rw [keysUnique, List.pairwise_append]
    refine ⟨h, List.pairwise_singleton _ _, ?_⟩
    intro a ha b hb
    have hb' : b.shop = s := by
      rcases List.mem_singleton.1 hb with rfl
      rfl
    rw [hb']
    intro hcon
    exact hany ((List.any_eq_true (p := fun x : ShopRow => x.shop == s)).2
      ⟨a, ha, beq_iff_eq.2 hcon⟩)

theorem upsertIndex_token (st : Store) (s tok : String) (n : Nat) :
    ∀ r ∈ upsertIndex st s tok n, r.shop = s → r.access_token = tok := by
  unfold upsertIndex
  by_cases hany : (st.any (fun r => r.shop == s)) = true
  · simp only [hany, if_true]
    intro r hr hshop
    rcases List.mem_map.1 hr with ⟨r0, h0, rfl⟩
    by_cases hr0 : (r0.shop == s) = true
    · rw [if_pos hr0]
    · rw [if_neg hr0] at hshop ⊢
      exact absurd (beq_iff_eq.2 hshop) hr0
  · simp only [hany, if_false, Bool.false_eq_true, not_false_eq_true]
    intro r hr hshop
    rcases List.mem_append.1 hr with hmem | hmem
    · exact absurd ((List.any_eq_true (p := fun x : ShopRow => x.shop == s)).2
        ⟨r, hmem, beq_iff_eq.2 hshop⟩) hany
    · rcases List.mem_singleton.1 hmem with rfl
      rfl

theorem eq_of_mem_of_shop_eq (st : Store) (h : keysUnique st) (a b : ShopRow)
    (ha : a ∈ st) (hb : b ∈ st) (hs : a.shop = b.shop) : a = b := by
  induction st with
  | nil => cases ha
  | cons r rs ih =>
    rcases List.pairwise_cons.1 h with ⟨hr, htl⟩
    rcases List.mem_cons.1 ha with rfl | ha'
    · rcases List.mem_cons.1 hb with rfl | hb'
      · rfl
      · exact absurd hs (hr b hb')
    · rcases List.mem_cons.1 hb with rfl | hb'
      · exact absurd hs.symm (hr a ha')
      · exact ih htl ha' hb'

/-- C5: two successive upserts for the same tenant leave exactly one row for
that tenant, carrying the second token (last write wins, no duplicate rows).
Embeds the `ON CONFLICT (shop) DO UPDATE` statement of `src/index.js`. -/
theorem upsert_last_write_wins (st : Store) (t tok1 tok2 : String) (n1 n2 : Nat)
    (h : keysUnique st) :
    countShop (upsertIndex (upsertIndex st t tok1 n1) t tok2 n2) t = 1 ∧
    ∀ r ∈ upsertIndex (upsertIndex st t tok1 n1) t tok2 n2,
      r.shop = t → r.access_token = tok2 :=
  ⟨upsertIndex_key_present _ _ _ _ (keysUnique_upsertIndex _ _ _ _ h),
   upsertIndex_token _ _ _ _⟩

theorem upsert_last_write_wins_witness :
    countShop (upsertIndex (upsertIndex [] "shop-a.myshopify.com" "tok1" 1)
        "shop-a.myshopify.com" "tok2" 2) "shop-a.myshopify.com" = 1 ∧
    ∀ r ∈ upsertIndex (upsertIndex [] "shop-a.myshopify.com" "tok1" 1)
        "shop-a.myshopify.com" "tok2" 2,
      r.shop = "shop-a.myshopify.com" → r.access_token = "tok2" :=
  upsert_last_write_wins [] "shop-a.myshopify.com" "tok1" "tok2" 1 2 List.Pairwise.nil

/-- C10: a repeated successful completion for a tenant that already has a row
changes only `access_token` and `updated_at`; `plan`, `settings` and
`created_at` keep their stored values (they are not reset to the insert
defaults). Embeds the `ON CONFLICT (shop) DO UPDATE SET access_token = $2,
updated_at = NOW()` clause of `src/index.js`. -/
theorem upsert_preserves_plan_settings (st : Store) (r0 : ShopRow) (tok : String)
    (n : Nat) (h : keysUnique st) (hmem : r0 ∈ st) :
    { r0 with access_token := tok, updated_at := some n } ∈ upsertIndex st r0.shop tok n ∧
    ∀ r ∈ upsertIndex st r0.shop tok n, r.shop = r0.shop →
      r = { r0 with access_token := tok, updated_at := some n } := by
  have hany : (st.any (fun r => r.shop == r0.shop)) = true :=
    (List.any_eq_true (p := fun x : ShopRow => x.shop == r0.shop)).2
      ⟨r0, hmem, beq_iff_eq.2 rfl⟩
  constructor
  · unfold upsertIndex
    rw [if_pos hany]
    refine List.mem_map.2 ⟨r0, hmem, ?_⟩
    rw [if_pos (beq_iff_eq.2 rfl)]
  · unfold upsertIndex
    rw [if_pos hany]
    intro r hr hshop
    rcases List.mem_map.1 hr with ⟨r1, h1, rfl⟩
    by_cases hr1 : (r1.shop == r0.shop) = true
    · rw [if_pos hr1]
      have he : r1 = r0 := eq_of_mem_of_shop_eq st h r1 r0 h1 hmem (beq_iff_eq.1 hr1)
      rw [he]
    · rw [if_neg hr1] at hshop
      exact absurd (beq_iff_eq.2 hshop) hr1

theorem upsert_preserves_plan_settings_witness :
    { shop := "shop-a.myshopify.com", access_token := "tok9", plan := "pro",
      settings := "\x7bs\x7d", created_at := 5, updated_at := some 9 } ∈
      upsertIndex [⟨"shop-a.myshopify.com", "tok0", "pro", "\x7bs\x7d", 5, none⟩]
        "shop-a.myshopify.com" "tok9" 9 ∧
    ∀ r ∈ upsertIndex [⟨"shop-a.myshopify.com", "tok0", "pro", "\x7bs\x7d", 5, none⟩]
        "shop-a.myshopify.com" "tok9" 9,
      r.shop = "shop-a.myshopify.com" →
        r = { shop := "shop-a.myshopify.com", access_token := "tok9", plan := "pro",
              settings := "\x7bs\x7d", created_at := 5, updated_at := some 9 } :=
  upsert_preserves_plan_settings
    [⟨"shop-a.myshopify.com", "tok0", "pro", "\x7bs\x7d", 5, none⟩]
    ⟨"shop-a.myshopify.com", "tok0", "pro", "\x7bs\x7d", 5, none⟩ "tok9" 9
    (List.pairwise_singleton _ _) (List.mem_singleton.2 rfl)

end TheCartSave

namespace TheCartSave

/-- C1 counterexample: the state ledger of `src/unnamed/part_000` is the
client-held cookie session, and `req.session = null` only instructs the
client to drop its cookie; the server consumes nothing. A duplicate or
replayed callback that presents the original `Cookie` header re-validates
against the same session and succeeds a second time with the same
`(tenant, code, state)`, refuting the at-most-once/anti-replay claim. -/
theorem completeAuthorization_replay_succeeds :
    (completeAuthorization ⟨"shop-a.myshopify.com", "code123", "s123"⟩
        (some ⟨"s123", "shop-a.myshopify.com"⟩) stubExchange [] true).outcome.isOk
      = true ∧
    (completeAuthorization ⟨"shop-a.myshopify.com", "code123", "s123"⟩
        (some ⟨"s123", "shop-a.myshopify.com"⟩) stubExchange
        (completeAuthorization ⟨"shop-a.myshopify.com", "code123", "s123"⟩
          (some ⟨"s123", "shop-a.myshopify.com"⟩) stubExchange [] true).store
        true).outcome.isOk = true := by
  decide

/-- C1 amended: single-use holds only against a client that honors the
session clearing. After a successful completion, a second callback with the
same `(tenant, code, state)` that presents the session state the success
response left behind (the cleared cookie, hence no session) fails with the
invalid-state error; a replay presenting the original cookie is not
prevented (see the counterexample above). -/
theorem completeAuthorization_single_use (q : CallbackQuery) (sess : Option Session)
    (ex : String → TokenResponse) (st : List CredRow) (dbOk : Bool)
    (h : (completeAuthorization q sess ex st dbOk).outcome.isOk = true) :
    (completeAuthorization q (completeAuthorization q sess ex st dbOk).session ex
        (completeAuthorization q sess ex st dbOk).store dbOk).outcome
      = .err .invalidState := by
  by_cases h1 : (q.shop == "" || q.code == "") = true
  · simp [completeAuthorization, h1, CallbackOutcome.isOk] at h
  · by_cases h2 : (q.state == "" || !(stateMatches q sess)) = true
    · simp [completeAuthorization, h1, h2, CallbackOutcome.isOk] at h
    · by_cases h3 : (!(shopMatches q sess)) = true
      · simp [completeAuthorization, h1, h2, h3, CallbackOutcome.isOk] at h
      · cases hx : (ex q.code).access_token with
        | none => simp [completeAuthorization, h1, h2, h3, hx, CallbackOutcome.isOk] at h
        | some tok =>
          cases dbOk with
          | false => simp [completeAuthorization, h1, h2, h3, hx, CallbackOutcome.isOk] at h
          | true =>
            have hres : completeAuthorization q sess ex st true
                = ⟨.ok tok, none, upsertP0 st q.shop tok, 1⟩ := by
              simp [completeAuthorization, h1, h2, h3, hx]
            rw [hres]
            simp [completeAuthorization, h1, stateMatches]

theorem completeAuthorization_single_use_witness :
    (completeAuthorization ⟨"shop-a.myshopify.com", "code123", "s123"⟩
        (some ⟨"s123", "shop-a.myshopify.com"⟩) stubExchange [] true).outcome.isOk = true ∧
    (completeAuthorization ⟨"shop-a.myshopify.com", "code123", "s123"⟩
        (completeAuthorization ⟨"shop-a.myshopify.com", "code123", "s123"⟩
          (some ⟨"s123", "shop-a.myshopify.com"⟩) stubExchange [] true).session stubExchange
        (completeAuthorization ⟨"shop-a.myshopify.com", "code123", "s123"⟩
          (some ⟨"s123", "shop-a.myshopify.com"⟩) stubExchange [] true).store true).outcome
      = .err .invalidState :=
  ⟨by decide, completeAuthorization_single_use _ _ _ _ _ (by decide)⟩

/-- C2: evaluation of the `src/index.js` callback at a state present in no
ledger: the handler performs the token exchange anyway (one call, successful
outcome), because this variant never validates `state`. The
session-validating variant `src/unnamed/part_000` rejects the same input
before any exchange call. -/
theorem indexCallback_exchanges_without_state_check :
    (completeAuthorizationIndex ⟨"shop-a.myshopify.com", "code123", "wrong-state"⟩
        stubExchange [] true 0).exchangeCalls = 1 ∧
    (completeAuthorizationIndex ⟨"shop-a.myshopify.com", "code123", "wrong-state"⟩
        stubExchange [] true 0).outcome = .ok "tok_abc" := by
  decide

/-- The part of C2 the session-validating variant does satisfy: a state that
does not match the ledger entry is rejected with the invalid-state error and
zero exchange calls (shared helper, not a claim theorem). -/
theorem completeAuthorization_unknown_state (q : CallbackQuery) (sess : Option Session)
    (ex : String → TokenResponse) (st : List CredRow) (dbOk : Bool)
    (hshop : ¬ q.shop = "") (hcode : ¬ q.code = "")
    (hstate : stateMatches q sess = false) :
    (completeAuthorization q sess ex st dbOk).outcome = .err .invalidState ∧
    (completeAuthorization q sess ex st dbOk).exchangeCalls = 0 := by
  refine ⟨?_, ?_⟩ <;> simp [completeAuthorization, hshop, hcode, hstate]

/-- C6: when the exchange response has no `access_token` field, the callback
of `src/unnamed/part_000` fails with the token-exchange error and the
credential store is returned unchanged: the upsert is never reached. -/
theorem exchange_without_token_no_write (q : CallbackQuery) (sess : Option Session)
    (ex : String → TokenResponse) (st : List CredRow) (dbOk : Bool)
    (hshop : ¬ q.shop = "") (hcode : ¬ q.code = "") (hstate : ¬ q.state = "")
    (hm1 : stateMatches q sess = true) (hm2 : shopMatches q sess = true)
    (hex : (ex q.code).access_token = none) :
    (completeAuthorization q sess ex st dbOk).outcome = .err .tokenExchangeFailed ∧
    (completeAuthorization q sess ex st dbOk).store = st := by
  refine ⟨?_, ?_⟩ <;> simp [completeAuthorization, hshop, hcode, hstate, hm1, hm2, hex]

theorem exchange_without_token_no_write_witness :
    (completeAuthorization ⟨"shop-a.myshopify.com", "code123", "s123"⟩
        (some ⟨"s123", "shop-a.myshopify.com"⟩) failExchange
        [⟨"shop-a.myshopify.com", "old"⟩] true).outcome = .err .tokenExchangeFailed ∧
    (completeAuthorization ⟨"shop-a.myshopify.com", "code123", "s123"⟩
        (some ⟨"s123", "shop-a.myshopify.com"⟩) failExchange
        [⟨"shop-a.myshopify.com", "old"⟩] true).store = [⟨"shop-a.myshopify.com", "old"⟩] :=
  exchange_without_token_no_write _ _ _ _ _
    (by decide) (by decide) (by decide) (by decide) (by decide) rfl

/-- C7 counterexample: in the `src/index.js` callback, a failing credential
write after a successful exchange is caught, logged and swallowed: the
handler still answers with the success page (`isOk`) and the store is left
without the credential. -/
theorem indexCallback_success_despite_db_failure :
    (completeAuthorizationIndex ⟨"shop-b.myshopify.com", "code456", "s456"⟩
        stubExchange [] false 7).outcome = .ok "tok_abc" ∧
    (completeAuthorizationIndex ⟨"shop-b.myshopify.com", "code456", "s456"⟩
        stubExchange [] false 7).store = [] := by
  decide

/-- C7 amended: in `src/unnamed/part_000` a failing credential write after a
successful exchange surfaces to the caller as the 500 catch-all error, never
as a success response, and the store is unchanged. -/
theorem persistence_failure_surfaced (q : CallbackQuery) (sess : Option Session)
    (ex : String → TokenResponse) (st : List CredRow) (tok : String)
    (hshop : ¬ q.shop = "") (hcode : ¬ q.code = "") (hstate : ¬ q.state = "")
    (hm1 : stateMatches q sess = true) (hm2 : shopMatches q sess = true)
    (hex : (ex q.code).access_token = some tok) :
    (completeAuthorization q sess ex st false).outcome = .err .callbackError ∧
    (completeAuthorization q sess ex st false).outcome.isOk = false ∧
    (completeAuthorization q sess ex st false).store = st := by
  refine ⟨?_, ?_, ?_⟩ <;>
    simp [completeAuthorization, hshop, hcode, hstate, hm1, hm2, hex, CallbackOutcome.isOk]

theorem persistence_failure_surfaced_witness :
    (completeAuthorization ⟨"shop-a.myshopify.com", "code123", "s123"⟩
        (some ⟨"s123", "shop-a.myshopify.com"⟩) stubExchange [] false).outcome
      = .err .callbackError ∧
    (completeAuthorization ⟨"shop-a.myshopify.com", "code123", "s123"⟩
        (some ⟨"s123", "shop-a.myshopify.com"⟩) stubExchange [] false).outcome.isOk = false ∧
    (completeAuthorization ⟨"shop-a.myshopify.com", "code123", "s123"⟩
        (some ⟨"s123", "shop-a.myshopify.com"⟩) stubExchange [] false).store = [] :=
  persistence_failure_surfaced _ _ _ _ "tok_abc"
    (by decide) (by decide) (by decide) (by decide) (by decide) rfl

/-- C9: a pending authorization older than the cookie expiry window
(`maxAge = 24h` in the `cookieSession` configuration) is rejected with the
invalid-state error even when the supplied state and tenant match the values
the ledger entry was created with: the expired cookie is no longer
presented, so the state comparison fails. -/
theorem expired_state_rejected (q : CallbackQuery) (s : Session) (issuedAt now : Nat)
    (ex : String → TokenResponse) (st : List CredRow) (dbOk : Bool)
    (hshop : ¬ q.shop = "") (hcode : ¬ q.code = "")
    (hstate : q.state = s.oauthState) (htenant : q.shop = s.shop)
    (hexp : issuedAt + maxAgeMs < now) :
    (completeAuthorization q (sessionFromCookie issuedAt s now) ex st dbOk).outcome
      = .err .invalidState := by
  have hsess : sessionFromCookie issuedAt s now = none := by
    simp [sessionFromCookie, hexp]
  simp [completeAuthorization, hsess, hshop, hcode, stateMatches]

theorem expired_state_rejected_witness :
    (completeAuthorization ⟨"shop-a.myshopify.com", "code123", "s123"⟩
        (sessionFromCookie 0 ⟨"s123", "shop-a.myshopify.com"⟩ 86400001)
        stubExchange [] true).outcome = .err .invalidState :=
  expired_state_rejected ⟨"shop-a.myshopify.com", "code123", "s123"⟩
    ⟨"s123", "shop-a.myshopify.com"⟩ 0 86400001 stubExchange [] true
    (by decide) (by decide) rfl rfl (by decide)

/-- C4 counterexample: the `/oauth` handler checks
`shop.includes(".myshopify.com")`, not that the tenant ends with the
platform suffix, so a nonempty tenant that merely contains the suffix in the
middle is accepted and a redirect URL is issued. -/
theorem beginAuthorization_accepts_non_suffix_tenant :
    (beginAuthorization "key" "a.myshopify.com.evil.com" "st1").isOk = true ∧
    strEndsWith "a.myshopify.com.evil.com" ".myshopify.com" = false ∧
    "a.myshopify.com.evil.com" ≠ "" := by
  decide

/-- C4 amended: a tenant that is empty fails with the missing-shop error, and
a nonempty tenant that does not contain the substring `.myshopify.com` fails
with the invalid-shop-domain error; in both cases no redirect URL is
returned. -/
theorem beginAuthorization_rejects_invalid_tenant (apiKey shop state : String)
    (h : shop = "" ∨ strIncludes shop ".myshopify.com" = false) :
    beginAuthorization apiKey shop state
      = .err (if shop = "" then .missingShop else .invalidShopDomain) := by
  by_cases hs : shop = ""
  · simp [beginAuthorization, hs]
  · rcases h with h | h
    · exact absurd h hs
    · simp [beginAuthorization, hs, h]

theorem beginAuthorization_rejects_invalid_tenant_witness :
    ("shop.example.com" = "" ∨ strIncludes "shop.example.com" ".myshopify.com" = false) ∧
    beginAuthorization "key" "shop.example.com" "st1"
      = .err (if "shop.example.com" = "" then BeginError.missingShop
              else BeginError.invalidShopDomain) :=
  ⟨Or.inr (by decide),
   beginAuthorization_rejects_invalid_tenant "key" "shop.example.com" "st1"
     (Or.inr (by decide))⟩

end TheCartSave

namespace TheCartSave

set_option maxRecDepth 8192 in
/-- C8 counterexample: in the authorization URL of `src/unnamed/part_000`,
the scope component is interpolated verbatim: the URL contains the raw
comma-joined scope string and not its (different) once-encoded form, so the
scope component is left unencoded rather than encoded exactly once. -/
theorem authUrl_scope_component_unencoded :
    strIncludes (authUrl "key" "shop-a.myshopify.com" "abc123")
      ("&scope=" ++ scopes ++ "&state=") = true ∧
    strIncludes (authUrl "key" "shop-a.myshopify.com" "abc123")
      (encodeURIComponent scopes) = false ∧
    encodeURIComponent scopes ≠ scopes := by
  refine ⟨by decide, by decide, by decide⟩

set_option maxRecDepth 8192 in
/-- C8 amended: the redirect URI component is passed through
`encodeURIComponent` exactly once (one application changes the string, a
second would change it again), while the scope string is embedded with no
encoding pass at all. -/
theorem authUrl_encoding_policy (apiKey shop state : String) :
    authUrl apiKey shop state =
      "https://" ++ shop ++ "/admin/oauth/authorize" ++ "?client_id=" ++ apiKey ++
        "&scope=" ++ scopes ++ "&state=" ++ state ++ "&redirect_uri="
        ++ encodeURIComponent redirectUri ∧
    encodeURIComponent redirectUri ≠ redirectUri ∧
    encodeURIComponent (encodeURIComponent redirectUri) ≠ encodeURIComponent redirectUri ∧
    encodeURIComponent scopes ≠ scopes := by
  refine ⟨rfl, by decide, by decide, by decide⟩

end TheCartSave

namespace TheCartSave

theorem codeAux_lt (l : List Nat) (h : ∀ v ∈ l, v ≤ 36) :
    codeAux l < 38 ^ l.length := by
  induction l with
  | nil => simp [codeAux]
  | cons v vs ih =>
    have hv := h v (List.mem_cons_self v vs)
    have hrec := ih (fun w hw => h w (List.mem_cons_of_mem v hw))
    simp only [codeAux, List.length_cons, pow_succ]
    omega

theorem codeAux_inj (l1 : List Nat) (l2 : List Nat)
    (h1 : ∀ v ∈ l1, v ≤ 36) (h2 : ∀ v ∈ l2, v ≤ 36)
    (he : codeAux l1 = codeAux l2) : l1 = l2 := by
  induction l1 generalizing l2 with
  | nil =>
    cases l2 with
    | nil => rfl
    | cons w ws => simp only [codeAux] at he; omega
  | cons v vs ih =>
    cases l2 with
    | nil => simp only [codeAux] at he; omega
    | cons w ws =>
      simp only [codeAux] at he
      have hv := h1 v (List.mem_cons_self v vs)
      have hw := h2 w (List.mem_cons_self w ws)
      have hvw : v = w := by omega
      have htail : codeAux vs = codeAux ws := by omega
      rw [hvw, ih ws (fun a ha => h1 a (List.mem_cons_of_mem v ha))
        (fun a ha => h2 a (List.mem_cons_of_mem w ha)) htail]

theorem char36val_base36Char : ∀ d : Fin 36, char36val (base36Char d) = d.val := by
  decide

theorem stateCode_mathRandomState (ds : List (Fin 36)) :
    stateCode (mathRandomState ds) =
      codeAux ((((stripTrailingZeros ds).take 13).reverse).map (fun d => d.val)) := by
  unfold stateCode mathRandomState
  rw [show (String.mk (((stripTrailingZeros ds).take 13).map base36Char)).data
      = ((stripTrailingZeros ds).take 13).map base36Char from rfl]
  rw [← List.map_reverse, List.map_map]
  congr 1
  exact List.map_congr_left (fun d _ => char36val_base36Char d)

/-- C3 refutation for the `src/index.js` generator: every state it can
produce is injectively coded by a natural number below `38 ^ 13`, and
`38 ^ 13 < 2 ^ 128`, so the state space of
`Math.random().toString(36).substring(2, 15)` has fewer than `2 ^ 128`
elements: strictly less than 128 bits of entropy, whatever the distribution
of `Math.random`. (`crypto.randomBytes(16)` in `src/unnamed/part_000` does
meet the 128-bit requirement.) -/
theorem mathRandomState_entropy_below_128 :
    (∀ ds : List (Fin 36), stateCode (mathRandomState ds) < 38 ^ 13) ∧
    38 ^ 13 < 2 ^ 128 ∧
    ∀ ds1 ds2 : List (Fin 36),
      stateCode (mathRandomState ds1) = stateCode (mathRandomState ds2) →
        mathRandomState ds1 = mathRandomState ds2 := by
  refine ⟨?_, by norm_num, ?_⟩
  · intro ds
    rw [stateCode_mathRandomState]
    have hb : ∀ v ∈ (((stripTrailingZeros ds).take 13).reverse).map
        (fun d : Fin 36 => d.val), v ≤ 36 := by
      intro v hv
      rcases List.mem_map.1 hv with ⟨d, _, rfl⟩
      omega
    have hlen : ((((stripTrailingZeros ds).take 13).reverse).map
        (fun d : Fin 36 => d.val)).length ≤ 13 := by
      simp [List.length_take]
    calc codeAux _ < 38 ^ ((((stripTrailingZeros ds).take 13).reverse).map
          (fun d : Fin 36 => d.val)).length := codeAux_lt _ hb
      _ ≤ 38 ^ 13 := Nat.pow_le_pow_right (by norm_num) hlen
  · intro ds1 ds2 he
    rw [stateCode_mathRandomState, stateCode_mathRandomState] at he
    have hb : ∀ ds : List (Fin 36), ∀ v ∈ (((stripTrailingZeros ds).take 13).reverse).map
        (fun d : Fin 36 => d.val), v ≤ 36 := by
      intro ds v hv
      rcases List.mem_map.1 hv with ⟨d, _, rfl⟩
      omega
    have hlists := codeAux_inj _ _ (hb ds1) (hb ds2) he
    have hmapinj : Function.Injective (List.map (fun d : Fin 36 => d.val)) :=
      List.map_injective_iff.2 Fin.val_injective
    have hrev := hmapinj hlists
    have htake : (stripTrailingZeros ds1).take 13 = (stripTrailingZeros ds2).take 13 :=
      List.reverse_injective hrev
    unfold mathRandomState
    rw [htake]

theorem mathRandomState_entropy_below_128_witness :
    stateCode (mathRandomState []) < 38 ^ 13 ∧ mathRandomState [] = mathRandomState [] :=
  ⟨mathRandomState_entropy_below_128.1 [],
   mathRandomState_entropy_below_128.2.2 [] [] rfl⟩

end TheCartSave
